import Mathlib

/-
Verification development for the Quectel L76 GNSS driver (l76.py).

Shallow embedding conventions:
  * Python byte strings are modelled as List Char (the driver iterates lines
    byte-wise; in the Zerynth dialect iterating a line yields integer byte
    values, modelled here by Char.toNat).
  * Python floats are modelled as exact rationals represented as
    numerator/denominator pairs without gcd normalization (PyF), so that
    every arithmetic step the driver performs is kernel-computable; the
    decimal literals and arithmetic of this fragment are exact, and value
    equality of two representations is cross-multiplication equality
    (PyF.eqv).
  * Python exceptions are modelled by Except State State: an error carries
    the partially-mutated driver state at the point the exception was raised,
    matching Python's in-place field mutation semantics.
  * int(s) / int(s, 16) / float(s) are modelled by pyIntDec / pyInt16 /
    pyFloat over the ASCII fragment these sentences use (whitespace
    stripping, an optional sign, an optional 0x radix marker for base 16,
    and single underscores between digits, as in CPython).
  * The single mutex only guards slot copies; the model is sequential, so
    lock acquire/release pairs are no-ops here.
-/

namespace L76

def cl (s : String) : List Char := s.toList

/-- Whitespace characters stripped by Python int()/float() conversion
(ASCII fragment). -/
def pyWs (c : Char) : Bool :=
  c = ' ' || c = '\t' || c = '\n' || c = '\r' || c = '\x0b' || c = '\x0c'

def stripWs (l : List Char) : List Char :=
  ((l.dropWhile pyWs).reverse.dropWhile pyWs).reverse

def hexDigitVal (c : Char) : Option Nat :=
  if '0' ≤ c ∧ c ≤ '9' then some (c.toNat - '0'.toNat)
  else if 'a' ≤ c ∧ c ≤ 'f' then some (c.toNat - 'a'.toNat + 10)
  else if 'A' ≤ c ∧ c ≤ 'F' then some (c.toNat - 'A'.toNat + 10)
  else none

def decDigitVal (c : Char) : Option Nat :=
  if '0' ≤ c ∧ c ≤ '9' then some (c.toNat - '0'.toNat) else none

/-- Digit run after the first digit: CPython permits single underscores
between digits, and rejects trailing or doubled underscores. -/
def digitsRest (dv : Char → Option Nat) (base : Nat) (acc : Nat) :
    List Char → Option Nat
  | [] => some acc
  | c :: rest =>
    if c = '_' then
      match rest with
      | [] => none
      | c2 :: rest2 =>
        match dv c2 with
        | some v => digitsRest dv base (acc * base + v) rest2
        | none => none
    else
      match dv c with
      | some v => digitsRest dv base (acc * base + v) rest
      | none => none

def parseDigits (dv : Char → Option Nat) (base : Nat) : List Char → Option Nat
  | [] => none
  | c :: rest =>
    match dv c with
    | some v => digitsRest dv base v rest
    | none => none

/-- Optional leading sign of a numeric literal. -/
def pySign (l : List Char) : Int × List Char :=
  match l with
  | c :: r => if c = '+' then (1, r) else if c = '-' then (-1, r) else (1, l)
  | [] => (1, l)

/-- CPython int(s, base) over the ASCII fragment: strip whitespace, optional
sign, for base 16 an optional 0x / 0X radix marker (a single underscore may
follow the marker), then a digit run. -/
def pyIntCore (dv : Char → Option Nat) (base : Nat) (allow0x : Bool)
    (l0 : List Char) : Option Int :=
  let l1 := stripWs l0
  let sp := pySign l1
  let l2 := sp.2
  let body : Option Nat :=
    match l2 with
    | a :: b :: r =>
      if allow0x ∧ a = '0' ∧ (b = 'x' ∨ b = 'X') then
        match r with
        | c :: r2 => if c = '_' then parseDigits dv base r2 else parseDigits dv base r
        | [] => parseDigits dv base r
      else parseDigits dv base l2
    | _ => parseDigits dv base l2
  body.map (fun v => sp.1 * (v : Int))

def pyInt16 (l : List Char) : Option Int := pyIntCore hexDigitVal 16 true l

def pyIntDec (l : List Char) : Option Int := pyIntCore decDigitVal 10 false l

def digitsToNat (ds : List Char) : Nat :=
  ds.foldl (fun a c => a * 10 + (c.toNat - '0'.toNat)) 0

/-- Exact rational value of a Python float in this fragment: a numerator and
a (by construction positive) denominator, kept unnormalized so that all
arithmetic reduces in the kernel. -/
structure PyF where
  num : Int
  den : Int
deriving DecidableEq

def PyF.ofInt (i : Int) : PyF := { num := i, den := 1 }

def PyF.add (a b : PyF) : PyF := { num := a.num * b.den + b.num * a.den, den := a.den * b.den }

def PyF.mul (a b : PyF) : PyF := { num := a.num * b.num, den := a.den * b.den }

def PyF.div (a b : PyF) : PyF := { num := a.num * b.den, den := a.den * b.num }

def PyF.neg (a : PyF) : PyF := { num := -a.num, den := a.den }

/-- Value equality of two representations. -/
def PyF.eqv (a b : PyF) : Prop := a.num * b.den = b.num * a.den

instance (a b : PyF) : Decidable (PyF.eqv a b) := by
  unfold PyF.eqv
  infer_instance

/-- CPython float(s) over the finite-decimal ASCII fragment used by NMEA
fields: strip whitespace, optional sign, digits with an optional fractional
part (at least one digit overall), optional decimal exponent. -/
def pyFloat (l : List Char) : Option PyF :=
  let l1 := stripWs l
  let sp : PyF × List Char :=
    match l1 with
    | c :: r =>
      if c = '+' then (PyF.ofInt 1, r)
      else if c = '-' then (PyF.ofInt (-1), r) else (PyF.ofInt 1, l1)
    | [] => (PyF.ofInt 1, l1)
  let l2 := sp.2
  let ip := l2.takeWhile Char.isDigit
  let r1 := l2.dropWhile Char.isDigit
  let fdr : List Char × List Char :=
    match r1 with
    | c :: r2 => if c = '.' then (r2.takeWhile Char.isDigit, r2.dropWhile Char.isDigit) else ([], r1)
    | [] => ([], r1)
  let fd := fdr.1
  let r3 := fdr.2
  if ip.length = 0 ∧ fd.length = 0 then none
  else
    let ex : Option Int :=
      match r3 with
      | [] => some 0
      | e :: r4 =>
        if e = 'e' ∨ e = 'E' then
          let sp2 : Int × List Char :=
            match r4 with
            | c :: r5 => if c = '+' then (1, r5) else if c = '-' then (-1, r5) else (1, r4)
            | [] => (1, r4)
          if sp2.2.length ≠ 0 ∧ sp2.2.all Char.isDigit then
            some (sp2.1 * (digitsToNat sp2.2 : Int))
          else none
        else none
    match ex with
    | none => none
    | some e =>
      let mant : PyF := PyF.add (PyF.ofInt (digitsToNat ip : Int))
        { num := (digitsToNat fd : Int), den := ((10 : Int) ^ fd.length) }
      let epow : PyF :=
        if 0 ≤ e then { num := (10 : Int) ^ e.toNat, den := 1 }
        else { num := 1, den := (10 : Int) ^ (-e).toNat }
      some (PyF.mul (PyF.mul sp.1 mant) epow)

/-- Python str.split(sep): splits keeping empty pieces; an empty string
yields a single empty piece. -/
def pySplit (sep : Char) : List Char → List (List Char)
  | [] => [[]]
  | c :: rest =>
    match pySplit sep rest with
    | [] => [[]]
    | f :: fs => if c = sep then [] :: f :: fs else (c :: f) :: fs

/-- Effective index of a Python slice bound: negative indices count from the
end, and both bounds clamp into [0, n]. -/
def sliceIdx (n : Nat) (i : Int) : Nat :=
  if i < 0 then ((n : Int) + i).toNat else min i.toNat n

/-- Python slicing l[a:b]. -/
def pySlice (l : List Char) (a b : Int) : List Char :=
  (l.take (sliceIdx l.length b)).drop (sliceIdx l.length a)

/-- First index at which the predicate holds, if any. -/
def findIdxP (p : Char → Bool) : List Char → Option Nat
  | [] => none
  | a :: l => if p a then some 0 else (findIdxP p l).map (· + 1)

/-- Python str.find(c, i): first occurrence of c at index ≥ i (negative i
counts from the end and clamps at 0), or -1. -/
def pyFind (l : List Char) (c : Char) (i : Int) : Int :=
  let j : Nat := if i < 0 then ((l.length : Int) + i).toNat else i.toNat
  match findIdxP (fun x => x = c) (l.drop j) with
  | none => -1
  | some k => ((j + k : Nat) : Int)

/-- The while-True loop of L76._check locating the last start delimiter:
repeatedly find the next dollar sign after the current one.  Each found index
is strictly larger than the previous (the search resumes at start+1, so the
Python guard s > start is always true), hence the loop runs at most
line.length + 1 times; the fuel below is sufficient and the zero-fuel branch
is unreachable from findLast. -/
def findLastAux (line : List Char) : Nat → Int → Int
  | 0, start => start
  | fuel + 1, start =>
    let s := pyFind line '$' (start + 1)
    if s < 0 then start else findLastAux line fuel s

def findLast (line : List Char) : Int := findLastAux line (line.length + 1) (-1)

/-- Running XOR of the byte values, as in the crc loop of L76._check. -/
def xorList (l : List Char) : Nat := l.foldl (fun a c => a ^^^ c.toNat) 0

/-- L76._check: locate the last dollar delimiter and the star delimiter after
it, validate the XOR checksum, and return the slice from the dollar delimiter
up to (excluding) the star delimiter.  The Python body is wrapped in
try/except returning None; the only failing operation is
int(line[end+1:end+3], 16), modelled by pyInt16 returning none. -/
def check (line : List Char) : Option (List Char) :=
  let start := findLast line
  let ed := pyFind line '*' start
  if start < 0 ∨ ed < 0 ∨ ed ≤ start + 2 then none
  else
    let crc := xorList (pySlice line (start + 1) ed)
    match pyInt16 (pySlice line (ed + 1) (ed + 3)) with
    | none => none
    | some chk => if (crc : Int) = chk then some (pySlice line start ed) else none

/-- A 7-tuple of integers (yyyy, MM, dd, hh, mm, ss, microseconds), the shape
of both the _tm buffer snapshot and the published UTC timestamp. -/
structure Tm7 where
  t0 : Int
  t1 : Int
  t2 : Int
  t3 : Int
  t4 : Int
  t5 : Int
  t6 : Int
deriving DecidableEq

/-- The published fix tuple (lines 399-410 of l76.py): the ten cfix slots,
with slot 9 replaced by a freshly built tuple of the seven _tm entries. -/
structure Fix where
  lat : Option PyF
  lon : Option PyF
  alt : Option PyF
  spd : Option PyF
  cog : Option PyF
  nsat : Option Int
  hdop : Option PyF
  vdop : Option PyF
  pdop : Option PyF
  tm : Tm7
deriving DecidableEq

/-- Driver state: the mutable fields of an L76 instance that the parsing
pipeline touches.  The heterogeneous Python list _cfix is modelled by one
typed field per index (each index holds a single type throughout the
program); _cfix[9] aliases the _tm list in Python but is never read back, so
it is stored here as a snapshot tuple. -/
structure State where
  tm0 : Int
  tm1 : Int
  tm2 : Int
  tm3 : Int
  tm4 : Int
  tm5 : Int
  tm6 : Int
  lat : PyF
  lon : PyF
  spd : PyF
  cog : PyF
  nsat : Int
  hdop : PyF
  vdop : PyF
  pdop : PyF
  alt : PyF
  cfix0 : Option PyF
  cfix1 : Option PyF
  cfix2 : Option PyF
  cfix3 : Option PyF
  cfix4 : Option PyF
  cfix5 : Option Int
  cfix6 : Option PyF
  cfix7 : Option PyF
  cfix8 : Option PyF
  cfix9 : Option Tm7
  time : Option Tm7
  fix : Option Fix
  rmc : Bool
  gga : Bool
  gsa : Bool
  utc : Bool
deriving DecidableEq

/-- State right after __init__. -/
def initState : State :=
  { tm0 := 0, tm1 := 0, tm2 := 0, tm3 := 0, tm4 := 0, tm5 := 0, tm6 := 0,
    lat := PyF.ofInt 0, lon := PyF.ofInt 0, spd := PyF.ofInt 0, cog := PyF.ofInt 0,
    nsat := 0, hdop := PyF.ofInt 0, vdop := PyF.ofInt 0, pdop := PyF.ofInt 0,
    alt := PyF.ofInt 0,
    cfix0 := none, cfix1 := none, cfix2 := none, cfix3 := none, cfix4 := none,
    cfix5 := none, cfix6 := none, cfix7 := none, cfix8 := none, cfix9 := none,
    time := none, fix := none, rmc := false, gga := false, gsa := false, utc := false }

def tmTuple (s : State) : Tm7 :=
  { t0 := s.tm0, t1 := s.tm1, t2 := s.tm2, t3 := s.tm3, t4 := s.tm4, t5 := s.tm5, t6 := s.tm6 }

/-- L76._set_time.  Each int() conversion may raise; an exception leaves the
assignments already made in place (Except.error carries that state).  The
first branch (yy >= 100 -> tm0 := yy) is immediately overwritten by the
following if/else, exactly as in the source. -/
def set_time (s : State) (tm dt : List Char) : Except State State :=
  match pyIntDec (pySlice dt 4 dt.length) with
  | none => .error s
  | some yy =>
    let s := if 100 ≤ yy then { s with tm0 := yy } else s
    let s := if 80 ≤ yy then { s with tm0 := 1900 + yy } else { s with tm0 := 2000 + yy }
    match pyIntDec (pySlice dt 2 4) with
    | none => .error s
    | some m1 =>
      let s := { s with tm1 := m1 }
      match pyIntDec (pySlice dt 0 2) with
      | none => .error s
      | some d2 =>
        let s := { s with tm2 := d2 }
        match pyIntDec (pySlice tm 0 2) with
        | none => .error s
        | some h3 =>
          let s := { s with tm3 := h3 }
          match pyIntDec (pySlice tm 2 4) with
          | none => .error s
          | some m4 =>
            let s := { s with tm4 := m4 }
            match pyIntDec (pySlice tm 4 6) with
            | none => .error s
            | some s5 =>
              let s := { s with tm5 := s5 }
              match pyIntDec (pySlice tm 7 tm.length) with
              | none => .error s
              | some u6 =>
                let s := { s with tm6 := u6 }
                let s := { s with cfix9 := some (tmTuple s) }
                .ok { s with utc := true }

/-- L76._set_pos: DDMM.MMMM / DDDMM.MMMM decoding, splitting two digits
before the decimal point; south/west markers negate. -/
def set_pos (s : State) (lat latp lon lonp : List Char) : Except State State :=
  let m := pyFind lat '.' 0 - 2
  match pyIntDec (pySlice lat 0 m), pyFloat (pySlice lat m lat.length) with
  | some ipart, some fpart =>
    let s := { s with lat := PyF.add (PyF.ofInt ipart) (PyF.div fpart (PyF.ofInt 60)) }
    let m2 := pyFind lon '.' 0 - 2
    match pyIntDec (pySlice lon 0 m2), pyFloat (pySlice lon m2 lon.length) with
    | some ipart2, some fpart2 =>
      let s := { s with lon := PyF.add (PyF.ofInt ipart2) (PyF.div fpart2 (PyF.ofInt 60)) }
      let s := if latp = ['S'] then { s with lat := PyF.neg s.lat } else s
      let s := if lonp = ['W'] then { s with lon := PyF.neg s.lon } else s
      let s := { s with cfix0 := some s.lat }
      .ok { s with cfix1 := some s.lon }
    | _, _ => .error s
  | _, _ => .error s

/-- L76._set_spd: knots to km/h (1.852 exactly, as a rational). -/
def set_spd (s : State) (spd : List Char) : Except State State :=
  match pyFloat spd with
  | none => .error s
  | some v =>
    let s := { s with spd := PyF.mul v { num := 1852, den := 1000 } }
    .ok { s with cfix3 := some s.spd }

def set_cog (s : State) (cog : List Char) : Except State State :=
  match pyFloat cog with
  | none => .error s
  | some v =>
    let s := { s with cog := v }
    .ok { s with cfix4 := some s.cog }

def set_hdop (s : State) (hdop : List Char) : Except State State :=
  match pyFloat hdop with
  | none => .error s
  | some v =>
    let s := { s with hdop := v }
    .ok { s with cfix6 := some s.hdop }

def set_vdop (s : State) (vdop : List Char) : Except State State :=
  match pyFloat vdop with
  | none => .error s
  | some v =>
    let s := { s with vdop := v }
    .ok { s with cfix7 := some s.vdop }

def set_pdop (s : State) (pdop : List Char) : Except State State :=
  match pyFloat pdop with
  | none => .error s
  | some v =>
    let s := { s with pdop := v }
    .ok { s with cfix8 := some s.pdop }

def set_alt (s : State) (alt : List Char) : Except State State :=
  match pyFloat alt with
  | none => .error s
  | some v =>
    let s := { s with alt := v }
    .ok { s with cfix2 := some s.alt }

def set_nsat (s : State) (nsat : List Char) : Except State State :=
  match pyIntDec nsat with
  | none => .error s
  | some v =>
    let s := { s with nsat := v }
    .ok { s with cfix5 := some s.nsat }

/-- Lines 387-415 of L76._parse: the tail reached by every path of the
if/elif chain that neither returns early nor raises.  Publish the timestamp
when the utc flag is set; publish a Fix and reset all four seen-flags when
both rmc and gga are set, blanking VDOP/PDOP when no GSA sentence was seen. -/
def tailPublish (s : State) : State :=
  let s := if s.utc then { s with time := some (tmTuple s) } else s
  if s.rmc && s.gga then
    let s := if !s.gsa then { s with cfix7 := none, cfix8 := none } else s
    { s with
      fix := some { lat := s.cfix0, lon := s.cfix1, alt := s.cfix2, spd := s.cfix3,
                    cog := s.cfix4, nsat := s.cfix5, hdop := s.cfix6, vdop := s.cfix7,
                    pdop := s.cfix8, tm := tmTuple s },
      rmc := false, gga := false, gsa := false, utc := false }
  else s

/-- L76._parse.  The argument is the result of check (None or a validated
line starting at the dollar delimiter).  Early returns skip tailPublish;
exceptions from the setters propagate (to be caught by the loop). -/
def parse (s : State) (lineO : Option (List Char)) : Except State State :=
  match lineO with
  | none => .ok s
  | some line =>
    if line.length < 8 then .ok s
    else
      -- the source also binds an unused local to line[1:3]
      let cmd := pySlice line 3 6
      if cmd = ['R', 'M', 'C'] then
        let flds := pySplit ',' line
        if flds.length < 13 then .ok s
        else
          match set_time s (flds.getD 1 []) (flds.getD 9 []) with
          | .error s1 => .error s1
          | .ok s1 =>
            if flds.getD 2 [] ≠ ['A'] then .ok s1   -- no fix: early return
            else
              match set_pos s1 (flds.getD 3 []) (flds.getD 4 []) (flds.getD 5 []) (flds.getD 6 []) with
              | .error s2 => .error s2
              | .ok s2 =>
                match set_spd s2 (flds.getD 7 []) with
                | .error s3 => .error s3
                | .ok s3 =>
                  match set_cog s3 (flds.getD 8 []) with
                  | .error s4 => .error s4
                  | .ok s4 => .ok (tailPublish { s4 with rmc := true })
      else if cmd = ['G', 'G', 'A'] then
        let flds := pySplit ',' line
        if flds.length < 15 then .ok s
        else
          if flds.getD 6 [] = ['0'] then .ok s   -- no fix: early return
          else
            match set_hdop s (flds.getD 8 []) with
            | .error s1 => .error s1
            | .ok s1 =>
              match set_nsat s1 (flds.getD 7 []) with
              | .error s2 => .error s2
              | .ok s2 =>
                match set_alt s2 (flds.getD 9 []) with
                | .error s3 => .error s3
                | .ok s3 => .ok (tailPublish { s3 with gga := true })
      else if cmd = ['G', 'S', 'A'] then
        let flds := pySplit ',' line
        if flds.length < 18 then .ok s
        else
          if flds.getD 2 [] ≠ ['3'] then .ok s   -- no 3D fix: early return
          else
            match set_hdop s (flds.getD 16 []) with
            | .error s1 => .error s1
            | .ok s1 =>
              match set_vdop s1 (flds.getD 17 []) with
              | .error s2 => .error s2
              | .ok s2 =>
                match set_pdop s2 (flds.getD 15 []) with
                | .error s3 => .error s3
                | .ok s3 => .ok (tailPublish { s3 with gsa := true })
      else
        .ok (tailPublish s)   -- unrecognized command: pass, then the tail runs

/-- L76.fix(): take and clear the pending Fix under the lock. -/
def fix (s : State) : Option Fix × State := (s.fix, { s with fix := none })

/-- L76.has_fix(): report presence without clearing. -/
def has_fix (s : State) : Bool := s.fix.isSome

/-- L76.utc(): take and clear the pending timestamp under the lock (a stored
7-tuple is always truthy, so the conditional clears exactly when a timestamp
is pending). -/
def utc (s : State) : Option Tm7 × State :=
  match s.time with
  | some t => (some t, { s with time := none })
  | none => (none, s)

/-- L76.has_utc(): report presence without clearing. -/
def has_utc (s : State) : Bool := s.time.isSome

/-- One iteration body of L76._run: readline, check, parse; an exception is
caught by the try/except and the loop continues with the mutations made so
far. -/
def runStep (s : State) (raw : List Char) : State :=
  match parse s (check raw) with
  | .ok s' => s'
  | .error s' => s'

/-- L76._run as a trace function.  Each list entry is one prospective
iteration: the value of the running flag read by the while condition, and
the raw line readline would deliver.  When the flag reads false the while
loop exits: the remaining entries are never consumed (the function also
counts consumed lines). -/
def runLoop (s : State) : List (Bool × List Char) → State × Nat
  | [] => (s, 0)
  | (flag, raw) :: rest =>
    if flag then
      let r := runLoop (runStep s raw) rest
      (r.1, r.2 + 1)
    else (s, 0)

/-- Scenario sentences (already validated, as produced by check: the dollar
delimiter is retained, star and checksum are stripped). -/
def rmcLine1 : List Char :=
  cl ("$GPRMC,123519.000,A,4807.038,N,01131.000,E,022.4,084.4,230394,003.1,W,A")

def ggaLine1 : List Char :=
  cl ("$GPGGA,123519.000,4807.038,N,01131.000,E,1,08,0.9,545.4,M,46.9,M,,")

def rmcLine2 : List Char :=
  cl ("$GPRMC,123520.000,A,4808.038,N,01132.000,E,023.4,085.4,230394,003.1,W,A")

def ggaLine2 : List Char :=
  cl ("$GPGGA,123520.000,4808.038,N,01132.000,E,1,09,1.1,600.1,M,46.9,M,,")

def gsaLine1 : List Char :=
  cl ("$GPGSA,A,3,04,05,,09,12,,,24,,,,,2.5,1.3,2.1")

/-- An RMC sentence with 13 fields whose validity flag is V (no fix). -/
def rmcLineV : List Char :=
  cl ("$GPRMC,123519.000,V,,,,,,,230394,,,N")

/-- The same no-fix RMC sentence in raw form with its correct XOR checksum. -/
def rawRmcV : List Char :=
  cl ("$GPRMC,123519.000,V,,,,,,,230394,,,N*4F")

/-- Collapse an Except to the carried state (what the state is after the
call, whether or not an exception was raised). -/
def stateOf (e : Except State State) : State :=
  match e with
  | .ok s => s
  | .error s => s

/-- Whether the call completed without an exception. -/
def isOkE (e : Except State State) : Bool :=
  match e with
  | .ok _ => true
  | .error _ => false

/-- Feed one already-validated line to the parser and keep the state. -/
def stepOk (s : State) (l : List Char) : State := stateOf (parse s (some l))

/- ------------------------------------------------------------------ -/
/- Helper lemmas                                                       -/
/- ------------------------------------------------------------------ -/

theorem char_toNat_inj {a b : Char} (h : a.toNat = b.toNat) : a = b :=
  Char.eq_of_val_eq (UInt32.eq_of_val_eq (Fin.eq_of_val_eq h))

theorem findIdxP_eq_none {p : Char → Bool} {l : List Char}
    (h : ∀ a ∈ l, p a = false) : findIdxP p l = none := by
  induction l with
  | nil => rfl
  | cons a l ih =>
    simp only [findIdxP, h a (List.mem_cons_self a l), Bool.false_eq_true, if_false]
    rw [ih fun x hx => h x (List.mem_cons_of_mem a hx)]
    rfl

theorem findIdxP_append_first {p : Char → Bool} {l1 : List Char} (c : Char)
    (l2 : List Char) (h : ∀ a ∈ l1, p a = false) (hc : p c = true) :
    findIdxP p (l1 ++ c :: l2) = some l1.length := by
  induction l1 with
  | nil => simp [findIdxP, hc]
  | cons a l ih =>
    simp only [List.cons_append, findIdxP, h a (List.mem_cons_self a l),
      Bool.false_eq_true, if_false, List.append_eq]
    rw [ih fun x hx => h x (List.mem_cons_of_mem a hx)]
    rfl

theorem findLastAux_succ (line : List Char) (fuel : Nat) (start : Int) :
    findLastAux line (fuel + 1) start =
      (if pyFind line '$' (start + 1) < 0 then start
       else findLastAux line fuel (pyFind line '$' (start + 1))) := rfl

/-- On a line that starts with the only dollar sign, the last-dollar loop
returns index 0. -/
theorem findLast_dollar_head {rest : List Char} (h : '$' ∉ rest) :
    findLast ('$' :: rest) = 0 := by
  have hlen : ('$' :: rest).length + 1 = rest.length + 1 + 1 := by simp
  have h0 : pyFind ('$' :: rest) '$' (-1 + 1) = 0 := by
    simp [pyFind, findIdxP]
  have h1 : pyFind ('$' :: rest) '$' (0 + 1) = -1 := by
    have hn : findIdxP (fun x => x = '$') rest = none := by
      refine findIdxP_eq_none fun a ha => ?_
      simp only [decide_eq_false_iff_not]
      exact fun hEq => h (hEq ▸ ha)
    simp [pyFind, hn]
  rw [findLast, hlen, findLastAux_succ, h0, if_neg (by omega)]
  rw [findLastAux_succ, h1, if_pos (by omega)]

/-- On a line with no dollar sign at all, the last-dollar loop returns -1. -/
theorem findLast_no_dollar {line : List Char} (h : '$' ∉ line) :
    findLast line = -1 := by
  have h0 : pyFind line '$' (-1 + 1) = -1 := by
    have hn : findIdxP (fun x => x = '$') line = none := by
      refine findIdxP_eq_none fun a ha => ?_
      simp only [decide_eq_false_iff_not]
      exact fun hEq => h (hEq ▸ ha)
    simp [pyFind, hn]
  rw [findLast, findLastAux_succ, h0, if_pos (by omega)]

theorem xor_left_comm (a b c : Nat) : a ^^^ (b ^^^ c) = b ^^^ (a ^^^ c) := by
  rw [← Nat.xor_assoc, Nat.xor_comm a b, Nat.xor_assoc]

theorem foldl_xor_init (l : List Char) (a : Nat) :
    l.foldl (fun x c => x ^^^ c.toNat) a = a ^^^ xorList l := by
  induction l generalizing a with
  | nil => simp [xorList]
  | cons c l ih =>
    show List.foldl (fun x c => x ^^^ c.toNat) (a ^^^ c.toNat) l = a ^^^ xorList (c :: l)
    rw [ih (a ^^^ c.toNat)]
    have hc : xorList (c :: l) = c.toNat ^^^ xorList l := by
      show List.foldl (fun x c => x ^^^ c.toNat) (0 ^^^ c.toNat) l = c.toNat ^^^ xorList l
      rw [ih (0 ^^^ c.toNat), Nat.zero_xor]
    rw [hc, Nat.xor_assoc]

theorem xorList_cons (c : Char) (l : List Char) :
    xorList (c :: l) = c.toNat ^^^ xorList l := by
  show List.foldl (fun x c => x ^^^ c.toNat) (0 ^^^ c.toNat) l = c.toNat ^^^ xorList l
  rw [foldl_xor_init l (0 ^^^ c.toNat), Nat.zero_xor]

/-- Changing one element of a list changes its running XOR by the XOR of the
old and new byte. -/
theorem xorList_set (p : List Char) (i : Nat) (b : Char) (hi : i < p.length) :
    xorList (p.set i b) = xorList p ^^^ (p.get ⟨i, hi⟩).toNat ^^^ b.toNat := by
  induction p generalizing i with
  | nil => simp at hi
  | cons a l ih =>
    cases i with
    | zero =>
      simp only [List.set_cons_zero, List.get, xorList_cons]
      simp only [Nat.xor_comm, xor_left_comm, Nat.xor_assoc, Nat.xor_self, Nat.xor_zero]
      rw [← Nat.xor_assoc a.toNat a.toNat, Nat.xor_self, Nat.zero_xor]
    | succ j =>
      have hj : j < l.length := by simpa using hi
      simp only [List.set_cons_succ, List.get, xorList_cons, ih j hj]
      simp [Nat.xor_comm, xor_left_comm, Nat.xor_assoc, Nat.xor_self, Nat.xor_zero]

theorem xor_left_ne {a x y : Nat} (h : x ≠ y) : a ^^^ x ≠ a ^^^ y := by
  intro he
  apply h
  have := congrArg (fun z => a ^^^ z) he
  simpa [← Nat.xor_assoc, Nat.xor_self] using this

theorem pySlice_nat (l : List Char) (a b : Nat) :
    pySlice l (a : Int) (b : Int) = (l.take (min b l.length)).drop (min a l.length) := by
  simp only [pySlice, sliceIdx]
  rw [if_neg (by omega), if_neg (by omega)]
  simp

theorem pyFind_nat_some {l : List Char} {c : Char} (i : Nat) {k : Nat}
    (h : findIdxP (fun x => x = c) (l.drop i) = some k) :
    pyFind l c (i : Int) = ((i + k : Nat) : Int) := by
  simp only [pyFind]
  rw [if_neg (by omega)]
  simp [h]

theorem pyFind_nat_none {l : List Char} {c : Char} (i : Nat)
    (h : findIdxP (fun x => x = c) (l.drop i) = none) :
    pyFind l c (i : Int) = -1 := by
  simp only [pyFind]
  rw [if_neg (by omega)]
  simp [h]

/-- Evaluation of check on a well-formed frame: a buffer that is exactly one
dollar delimiter, a delimiter-free payload of length at least two, the star
delimiter, and two trailing bytes (neither a dollar sign).  The checksum
comparison and the returned slice are as in the source: the returned payload
keeps its leading dollar sign. -/
theorem check_frame (p : List Char) (d1 d2 : Char)
    (hp : '$' ∉ p) (hs : '*' ∉ p) (hlen : 2 ≤ p.length)
    (h1 : d1 ≠ '$') (h2 : d2 ≠ '$') :
    check ('$' :: p ++ '*' :: [d1, d2]) =
      match pyInt16 [d1, d2] with
      | none => none
      | some chk => if ((xorList p : Nat) : Int) = chk then some ('$' :: p) else none := by
  have hrest : '$' ∉ p ++ '*' :: [d1, d2] := by
    intro hmem
    rcases List.mem_append.mp hmem with hm | hm
    · exact hp hm
    · rcases List.mem_cons.mp hm with he | hm
      · exact absurd he (by decide)
      · rcases List.mem_cons.mp hm with he | hm
        · exact h1 he.symm
        · rcases List.mem_cons.mp hm with he | hm
          · exact h2 he.symm
          · exact absurd hm (List.not_mem_nil _)
  have hstart : findLast ('$' :: p ++ '*' :: [d1, d2]) = 0 := findLast_dollar_head hrest
  have hfi : findIdxP (fun x => x = '*') ('$' :: p ++ '*' :: [d1, d2]) =
      some (p.length + 1) := by
    have htail : findIdxP (fun x => x = '*') (p ++ '*' :: [d1, d2]) = some p.length := by
      refine findIdxP_append_first '*' [d1, d2] (fun a ha => ?_) (by simp)
      simp only [decide_eq_false_iff_not]
      exact fun he => hs (he ▸ ha)
    simp [findIdxP, htail]
  have hed : pyFind ('$' :: p ++ '*' :: [d1, d2]) '*' 0 = ((p.length + 1 : Nat) : Int) := by
    have h0 := pyFind_nat_some 0 hfi
    simpa using h0
  have hlenline : ('$' :: p ++ '*' :: [d1, d2]).length = p.length + 4 := by simp
  have htake1 : ('$' :: p ++ '*' :: [d1, d2]).take (p.length + 1) = '$' :: p := by
    have hshape1 : ('$' :: p ++ '*' :: [d1, d2]) = ('$' :: p) ++ ('*' :: [d1, d2]) := by simp
    rw [hshape1]
    have hl : p.length + 1 = ('$' :: p).length := by simp
    rw [hl, List.take_left]
  have hslice1 : pySlice ('$' :: p ++ '*' :: [d1, d2]) ((0 : Int) + 1)
      ((p.length + 1 : Nat) : Int) = p := by
    rw [show ((0 : Int) + 1) = ((1 : Nat) : Int) by norm_num, pySlice_nat, hlenline]
    rw [Nat.min_eq_left (by omega), Nat.min_eq_left (by omega), htake1]
    rfl
  have hslice0 : pySlice ('$' :: p ++ '*' :: [d1, d2]) (0 : Int)
      ((p.length + 1 : Nat) : Int) = '$' :: p := by
    rw [show (0 : Int) = ((0 : Nat) : Int) by norm_num, pySlice_nat, hlenline]
    rw [Nat.min_eq_left (by omega), Nat.min_eq_left (by omega), htake1]
    rfl
  have hslice2 : pySlice ('$' :: p ++ '*' :: [d1, d2]) (((p.length + 1 : Nat) : Int) + 1)
      (((p.length + 1 : Nat) : Int) + 3) = [d1, d2] := by
    rw [show (((p.length + 1 : Nat) : Int) + 1) = ((p.length + 2 : Nat) : Int) by push_cast; ring]
    rw [show (((p.length + 1 : Nat) : Int) + 3) = ((p.length + 4 : Nat) : Int) by push_cast; ring]
    rw [pySlice_nat, hlenline]
    rw [Nat.min_eq_left (by omega), Nat.min_eq_left (by omega)]
    rw [← hlenline, List.take_length]
    have hshape2 : ('$' :: p ++ '*' :: [d1, d2]) = (('$' :: p) ++ ['*']) ++ [d1, d2] := by
      simp
    rw [hshape2]
    have hl : p.length + 2 = (('$' :: p) ++ ['*']).length := by simp
    rw [hl, List.drop_left]
  simp only [check, hstart, hed]
  have hcond : ¬((0 : Int) < 0 ∨ ((p.length + 1 : Nat) : Int) < 0 ∨
      ((p.length + 1 : Nat) : Int) ≤ 0 + 2) := by
    push_cast
    simp only [false_or]
    omega
  rw [if_neg hcond]
  rw [hslice1, hslice2, hslice0]

/-- A character with a hexadecimal digit value is none of the characters that
the int() conversion treats specially. -/
theorem hex_char_facts {c : Char} {h : Nat} (hd : hexDigitVal c = some h) :
    c ≠ ' ' ∧ c ≠ '\t' ∧ c ≠ '\n' ∧ c ≠ '\r' ∧ c ≠ '\x0b' ∧ c ≠ '\x0c' ∧
    c ≠ '+' ∧ c ≠ '-' ∧ c ≠ '_' ∧ c ≠ 'x' ∧ c ≠ 'X' ∧ c ≠ '$' ∧ c ≠ '*' := by
  have hb : ('0' ≤ c ∧ c ≤ '9') ∨ ('a' ≤ c ∧ c ≤ 'f') ∨ ('A' ≤ c ∧ c ≤ 'F') := by
    unfold hexDigitVal at hd
    split at hd
    · exact Or.inl (by assumption)
    · split at hd
      · exact Or.inr (Or.inl (by assumption))
      · split at hd
        · exact Or.inr (Or.inr (by assumption))
        · exact Option.noConfusion hd
  obtain ⟨hl, hr⟩ | ⟨hl, hr⟩ | ⟨hl, hr⟩ := hb <;>
    refine ⟨?_, ?_, ?_, ?_, ?_, ?_, ?_, ?_, ?_, ?_, ?_, ?_, ?_⟩ <;>
    · rintro rfl
      first
        | exact absurd hl (by decide)
        | exact absurd hr (by decide)

theorem pyWs_false_of_ne {c : Char} (n1 : c ≠ ' ') (n2 : c ≠ '\t') (n3 : c ≠ '\n')
    (n4 : c ≠ '\r') (n5 : c ≠ '\x0b') (n6 : c ≠ '\x0c') : pyWs c = false := by
  simp [pyWs, n1, n2, n3, n4, n5, n6]

theorem stripWs_pair {a b : Char} (ha : pyWs a = false) (hb : pyWs b = false) :
    stripWs [a, b] = [a, b] := by
  simp [stripWs, List.dropWhile, ha, hb]

/-- Python int(s, 16) on a two-hex-digit string. -/
theorem pyInt16_pair {c1 c2 : Char} {v1 v2 : Nat}
    (h1 : hexDigitVal c1 = some v1) (h2 : hexDigitVal c2 = some v2) :
    pyInt16 [c1, c2] = some ((v1 * 16 + v2 : Nat) : Int) := by
  obtain ⟨a1, a2, a3, a4, a5, a6, a7, a8, a9, a10, a11, _, _⟩ := hex_char_facts h1
  obtain ⟨b1, b2, b3, b4, b5, b6, b7, b8, b9, b10, b11, _, _⟩ := hex_char_facts h2
  have hsgn : pySign [c1, c2] = (1, [c1, c2]) := by simp [pySign, a7, a8]
  simp only [pyInt16, pyIntCore,
    stripWs_pair (pyWs_false_of_ne a1 a2 a3 a4 a5 a6) (pyWs_false_of_ne b1 b2 b3 b4 b5 b6),
    hsgn]
  simp [parseDigits, digitsRest, h1, h2, a9, b9, b10, b11]

/-- C2 counterexample: on the well-formed buffer between delimiters the
validator returns the payload WITH its leading dollar sign, not the bare
payload; moreover a one-character payload is rejected even with a correct
checksum.  The XOR of AB is 0x03. -/
theorem check_payload_counterexample_C2 :
    check (cl ("$AB*03")) = some (cl ("$AB")) ∧
    check (cl ("$AB*03")) ≠ some (cl ("AB")) ∧
    check (cl ("$A*41")) = none := by decide

/-- C2 (amended): for every buffer of shape dollar, payload (delimiter-free,
length at least 2), star, two hex checksum digits whose value is the XOR of
the payload bytes, validation succeeds and returns the dollar sign followed
by the payload (star and checksum excluded). -/
theorem check_wellformed_C2 (p : List Char) (c1 c2 : Char) (v1 v2 : Nat)
    (hp : '$' ∉ p) (hs : '*' ∉ p) (hlen : 2 ≤ p.length)
    (h1 : hexDigitVal c1 = some v1) (h2 : hexDigitVal c2 = some v2)
    (hxor : xorList p = v1 * 16 + v2) :
    check ('$' :: p ++ '*' :: [c1, c2]) = some ('$' :: p) := by
  obtain ⟨-, -, -, -, -, -, -, -, -, -, -, hd1, -⟩ := hex_char_facts h1
  obtain ⟨-, -, -, -, -, -, -, -, -, -, -, hd2, -⟩ := hex_char_facts h2
  rw [check_frame p c1 c2 hp hs hlen hd1 hd2, pyInt16_pair h1 h2]
  simp [hxor]

/-- C2 witness: the amended theorem applied to the payload AB with checksum
03. -/
theorem check_wellformed_C2_witness :
    check ('$' :: cl ("AB") ++ '*' :: ['0', '3']) = some ('$' :: cl ("AB")) :=
  check_wellformed_C2 (cl ("AB")) '0' '3' 0 3 (by decide) (by decide) (by decide)
    (by decide) (by decide) (by decide)

/-- C6 counterexample: corrupting the first checksum digit from 0 to a space
does NOT make validation fail: int(" 3", 16) still parses to 3, which equals
the XOR of the payload AB, so the corrupted buffer validates. -/
theorem check_corruption_counterexample_C6 :
    check (cl ("$AB*03")) = some (cl ("$AB")) ∧
    check (cl ("$AB* 3")) = some (cl ("$AB")) := by decide

/-- C6 (amended): on a well-formed buffer, changing one payload byte to any
byte other than the two delimiters makes validation fail; changing checksum
bytes makes validation fail whenever the resulting two-character field no
longer parses (under Python int semantics) to the payload XOR. -/
theorem check_corruption_C6 :
    (∀ (p : List Char) (c1 c2 : Char) (v1 v2 : Nat) (i : Nat) (b : Char)
      (hi : i < p.length),
      '$' ∉ p → '*' ∉ p → 2 ≤ p.length →
      hexDigitVal c1 = some v1 → hexDigitVal c2 = some v2 →
      xorList p = v1 * 16 + v2 →
      b ≠ p.get ⟨i, hi⟩ → b ≠ '$' → b ≠ '*' →
      check ('$' :: (p.set i b) ++ '*' :: [c1, c2]) = none) ∧
    (∀ (p : List Char) (d1 d2 : Char),
      '$' ∉ p → '*' ∉ p → 2 ≤ p.length → d1 ≠ '$' → d2 ≠ '$' →
      pyInt16 [d1, d2] ≠ some ((xorList p : Nat) : Int) →
      check ('$' :: p ++ '*' :: [d1, d2]) = none) := by
  constructor
  · intro p c1 c2 v1 v2 i b hi hp hs hlen h1 h2 hxor hb hbd hbs
    obtain ⟨-, -, -, -, -, -, -, -, -, -, -, hd1, -⟩ := hex_char_facts h1
    obtain ⟨-, -, -, -, -, -, -, -, -, -, -, hd2, -⟩ := hex_char_facts h2
    have hp' : '$' ∉ p.set i b := by
      intro hm
      rcases List.mem_or_eq_of_mem_set hm with hm | hm
      · exact hp hm
      · exact hbd hm.symm
    have hs' : '*' ∉ p.set i b := by
      intro hm
      rcases List.mem_or_eq_of_mem_set hm with hm | hm
      · exact hs hm
      · exact hbs hm.symm
    have hlen' : 2 ≤ (p.set i b).length := by simpa using hlen
    rw [check_frame (p.set i b) c1 c2 hp' hs' hlen' hd1 hd2, pyInt16_pair h1 h2]
    have hneq : xorList (p.set i b) ≠ v1 * 16 + v2 := by
      rw [xorList_set p i b hi, ← hxor, Nat.xor_assoc]
      have hz : (p.get ⟨i, hi⟩).toNat ^^^ b.toNat ≠ 0 := by
        intro h0
        exact hb (char_toNat_inj (Nat.xor_eq_zero.mp h0)).symm
      have := xor_left_ne (a := xorList p) hz
      simpa using this
    have hneqZ : ¬(((xorList (p.set i b) : Nat) : Int) = ((v1 * 16 + v2 : Nat) : Int)) := by
      exact_mod_cast hneq
    show (if ((xorList (p.set i b) : Nat) : Int) = ((v1 * 16 + v2 : Nat) : Int) then
        some ('$' :: p.set i b) else none) = none
    rw [if_neg hneqZ]
  · intro p d1 d2 hp hs hlen h1 h2 hne
    rw [check_frame p d1 d2 hp hs hlen h1 h2]
    cases hpi : pyInt16 [d1, d2] with
    | none => rfl
    | some chk =>
      show (if ((xorList p : Nat) : Int) = chk then some ('$' :: p) else none) = none
      rw [if_neg]
      intro he
      exact hne (by rw [hpi, ← he])

/-- C6 witness: a payload byte corrupted from A to C, and a checksum byte
corrupted from 0 to Z, each make validation fail. -/
theorem check_corruption_C6_witness :
    check ('$' :: ((cl ("AB")).set 0 'C') ++ '*' :: ['0', '3']) = none ∧
    check ('$' :: cl ("AB") ++ '*' :: ['Z', '3']) = none := by
  constructor
  · exact check_corruption_C6.1 (cl ("AB")) '0' '3' 0 3 0 'C' (by decide) (by decide)
      (by decide) (by decide) (by decide) (by decide) (by decide) (by decide)
      (by decide) (by decide)
  · exact check_corruption_C6.2 (cl ("AB")) 'Z' '3' (by decide) (by decide) (by decide)
      (by decide) (by decide) (by decide)

/-- A successful _set_time call sets the utc seen-flag and touches neither
shared slot nor the other seen-flags. -/
theorem set_time_effects {s : State} {tm dt : List Char} {s1 : State}
    (h : set_time s tm dt = .ok s1) :
    s1.utc = true ∧ s1.time = s.time ∧ s1.fix = s.fix ∧ s1.rmc = s.rmc ∧
    s1.gga = s.gga ∧ s1.gsa = s.gsa := by
  simp only [set_time] at h
  repeat' split at h
  all_goals first
    | (injection h with h2; subst h2; exact ⟨rfl, rfl, rfl, rfl, rfl, rfl⟩)
    | injection h

/-- Publication branch of the parse tail: when both mandatory flags are set
a Fix is stored and all four seen-flags are reset; the optional DOP slots are
blanked exactly when the geometry flag is unset. -/
theorem tailPublish_pub {s : State} (h1 : s.rmc = true) (h2 : s.gga = true) :
    (tailPublish s).fix = some
      { lat := s.cfix0, lon := s.cfix1, alt := s.cfix2, spd := s.cfix3, cog := s.cfix4,
        nsat := s.cfix5, hdop := s.cfix6,
        vdop := if s.gsa then s.cfix7 else none,
        pdop := if s.gsa then s.cfix8 else none, tm := tmTuple s } ∧
    (tailPublish s).rmc = false ∧ (tailPublish s).gga = false ∧
    (tailPublish s).gsa = false ∧ (tailPublish s).utc = false := by
  simp only [tailPublish]
  cases hu : s.utc <;> cases hg : s.gsa <;> simp [h1, h2, hu, hg, tmTuple]

/-- Non-publication branch of the parse tail: when the mandatory pair is not
complete the fix slot, the seen-flags and the DOP slots are untouched. -/
theorem tailPublish_nopub {s : State} (h : ¬(s.rmc = true ∧ s.gga = true)) :
    (tailPublish s).fix = s.fix ∧ (tailPublish s).rmc = s.rmc ∧
    (tailPublish s).gga = s.gga ∧ (tailPublish s).gsa = s.gsa ∧
    (tailPublish s).cfix7 = s.cfix7 ∧ (tailPublish s).cfix8 = s.cfix8 ∧
    (tailPublish s).utc = s.utc := by
  have hb : (s.rmc && s.gga) = false := by
    cases hr : s.rmc <;> cases hg : s.gga <;> simp_all
  simp only [tailPublish]
  cases hu : s.utc <;> simp [hb, hu]

/-- With the utc seen-flag set the parse tail publishes the buffered
timestamp. -/
theorem tailPublish_time_of_utc {s : State} (h : s.utc = true) :
    (tailPublish s).time = some (tmTuple s) := by
  simp only [tailPublish, h, if_true]
  split
  · split <;> simp [tmTuple]
  · simp

/-- C7 counterexample: the date field 0101123 has year digits 123; the code
resolves it to 1900 + 123 = 2023, while the claim's rule (2000 + value for
values outside 80..99) would give 2123. -/
theorem year_rule_counterexample_C7 :
    isOkE (set_time initState (cl ("123519.000")) (cl ("0101123"))) = true ∧
    (stateOf (set_time initState (cl ("123519.000")) (cl ("0101123")))).tm0 = 1900 + 123 ∧
    (1900 + 123 : Int) ≠ 2000 + 123 := by decide

/-- C7 (amended): the year digits parsed from the tail of the date field are
resolved to 1900 + value whenever value is at least 80 (with no upper bound:
the dead yy >= 100 assignment in the source is immediately overwritten), and
to 2000 + value otherwise. -/
theorem year_rule_C7 (s : State) (tm dt : List Char) (yy : Int)
    (hyy : pyIntDec (pySlice dt 4 dt.length) = some yy) :
    (stateOf (set_time s tm dt)).tm0 = if 80 ≤ yy then 1900 + yy else 2000 + yy := by
  simp only [set_time, hyy]
  repeat' split
  all_goals rfl

/-- C7 witness: the year digits 94 of the scenario date resolve to 1994. -/
theorem year_rule_C7_witness :
    (stateOf (set_time initState (cl ("123519.000")) (cl ("230394")))).tm0 = 1994 := by
  have h := year_rule_C7 initState (cl ("123519.000")) (cl ("230394")) 94 (by decide)
  rw [h]
  norm_num

/-- C3 counterexample: an RMC sentence with 13 fields and validity flag V
extracts the time (utc flag set, year 1994, hour 12) but nothing is published
to the shared timestamp slot during that same parse call, because the
no-fix early return skips the publication tail. -/
theorem rmc_time_counterexample_C3 :
    (stepOk initState rmcLineV).utc = true ∧
    (stepOk initState rmcLineV).tm0 = 1994 ∧
    (stepOk initState rmcLineV).tm3 = 12 ∧
    (stepOk initState rmcLineV).time = none := by decide

/-- C3 (amended): for an RMC sentence with at least 13 fields the time-of-day
and date fields are always extracted and buffered (utc seen-flag set), but
when the validity flag is not A the parse call returns before the publication
tail, leaving the shared timestamp slot unchanged; the buffered timestamp is
then published by the next parse call that reaches the tail (for instance any
checksum-valid line of length at least 8 with an unrecognized command
code). -/
theorem rmc_time_deferred_C3 :
    (∀ (s : State) (line : List Char) (s1 : State),
      ¬ line.length < 8 →
      pySlice line 3 6 = ['R', 'M', 'C'] →
      ¬ (pySplit ',' line).length < 13 →
      set_time s ((pySplit ',' line).getD 1 []) ((pySplit ',' line).getD 9 []) = .ok s1 →
      (pySplit ',' line).getD 2 [] ≠ ['A'] →
      parse s (some line) = .ok s1 ∧ s1.utc = true ∧ s1.time = s.time ∧ s1.fix = s.fix) ∧
    (∀ (s : State) (line : List Char),
      ¬ line.length < 8 →
      pySlice line 3 6 ≠ ['R', 'M', 'C'] →
      pySlice line 3 6 ≠ ['G', 'G', 'A'] →
      pySlice line 3 6 ≠ ['G', 'S', 'A'] →
      s.utc = true →
      parse s (some line) = .ok (tailPublish s) ∧
      (tailPublish s).time = some (tmTuple s)) := by
  constructor
  · intro s line s1 h8 hcmd h13 hst hdv
    have heff := set_time_effects hst
    refine ⟨?_, heff.1, heff.2.1, heff.2.2.1⟩
    simp only [parse]
    rw [if_neg h8, hcmd, if_pos rfl, if_neg h13, hst]
    exact if_pos hdv
  · intro s line h8 hc1 hc2 hc3 hutc
    refine ⟨?_, tailPublish_time_of_utc hutc⟩
    simp only [parse]
    rw [if_neg h8, if_neg hc1, if_neg hc2, if_neg hc3]

/-- C3 witness: the amended theorem applied to the concrete no-fix RMC
sentence, and then to an unrecognized ZDA sentence that flushes the buffered
timestamp. -/
theorem rmc_time_deferred_C3_witness :
    (parse initState (some rmcLineV) =
      .ok (stateOf (set_time initState ((pySplit ',' rmcLineV).getD 1 [])
            ((pySplit ',' rmcLineV).getD 9 []))) ∧
     (stateOf (set_time initState ((pySplit ',' rmcLineV).getD 1 [])
            ((pySplit ',' rmcLineV).getD 9 []))).utc = true ∧
     (stateOf (set_time initState ((pySplit ',' rmcLineV).getD 1 [])
            ((pySplit ',' rmcLineV).getD 9 []))).time = initState.time ∧
     (stateOf (set_time initState ((pySplit ',' rmcLineV).getD 1 [])
            ((pySplit ',' rmcLineV).getD 9 []))).fix = initState.fix) ∧
    (parse (stepOk initState rmcLineV) (some (cl ("$GPZDA,x"))) =
      .ok (tailPublish (stepOk initState rmcLineV)) ∧
     (tailPublish (stepOk initState rmcLineV)).time =
       some (tmTuple (stepOk initState rmcLineV))) := by
  constructor
  · exact rmc_time_deferred_C3.1 initState rmcLineV _ (by decide) (by decide) (by decide)
      rfl (by decide)
  · exact rmc_time_deferred_C3.2 (stepOk initState rmcLineV) (cl ("$GPZDA,x"))
      (by decide) (by decide) (by decide) (by decide) (by decide)

/-- C4: fix() returns the pending Fix and clears only the fix slot (a second
immediate call returns none, the timestamp slot is untouched); utc()
symmetrically takes and clears only the timestamp slot; has_fix() and
has_utc() report presence without clearing.  All four are total functions of
the state: absence is the explicit value none, never an exception. -/
theorem accessors_C4 (s : State) :
    (fix s).1 = s.fix ∧ ((fix s).2).fix = none ∧ ((fix s).2).time = s.time ∧
    (fix ((fix s).2)).1 = none ∧
    (utc s).1 = s.time ∧ ((utc s).2).time = none ∧ ((utc s).2).fix = s.fix ∧
    (utc ((utc s).2)).1 = none ∧
    has_fix s = (s.fix).isSome ∧ has_utc s = (s.time).isSome := by
  cases ht : s.time <;> simp [fix, utc, has_fix, has_utc, ht]

/-- C8 counterexample: when the while condition reads the running flag as
false the loop does not idle and resume: it exits.  A line offered while the
flag is false and a second line offered after the flag reads true again are
never consumed and the state never changes, although consuming that same
line while running does change the state. -/
theorem run_pause_counterexample_C8 :
    runLoop initState [(false, rawRmcV), (true, rawRmcV)] = (initState, 0) ∧
    (runLoop initState [(true, rawRmcV)]).1 ≠ initState ∧
    (runLoop initState [(true, rawRmcV)]).2 = 1 := by decide

/-- C8 (amended): once the while condition reads the running flag as false,
the loop exits immediately with the state unchanged and consumes no further
input, even if later trace entries carry the flag as true (the thread has
died; there is no sleep and no resumption); while the flag reads true, each
iteration consumes exactly one line through check and parse. -/
theorem run_pause_C8 :
    (∀ (s : State) (l : List Char) (rest : List (Bool × List Char)),
      runLoop s ((false, l) :: rest) = (s, 0)) ∧
    (∀ (s : State) (l : List Char) (rest : List (Bool × List Char)),
      runLoop s ((true, l) :: rest) =
        ((runLoop (runStep s l) rest).1, (runLoop (runStep s l) rest).2 + 1)) := by
  exact ⟨fun s l rest => rfl, fun s l rest => rfl⟩

/-- C9: the checksum validator is a total function into Option: every line is
mapped to none or to a validated payload (the Python try/except turns the
only failing operation, the int() conversion, into None).  In particular each
malformed-line category returns none: no dollar delimiter, no star delimiter
after the last dollar, delimiter gap too short, and a checksum field that
does not parse as hexadecimal. -/
theorem check_total_C9 (line : List Char) :
    (check line = none ∨ ∃ payload, check line = some payload) ∧
    ('$' ∉ line → check line = none) ∧
    (pyFind line '*' (findLast line) = -1 → check line = none) ∧
    (pyFind line '*' (findLast line) ≤ findLast line + 2 → check line = none) ∧
    (pyInt16 (pySlice line (pyFind line '*' (findLast line) + 1)
        (pyFind line '*' (findLast line) + 3)) = none → check line = none) := by
  refine ⟨?_, ?_, ?_, ?_, ?_⟩
  · rcases h : check line with - | p
    · exact Or.inl rfl
    · exact Or.inr ⟨p, rfl⟩
  · intro hnd
    have hstart := findLast_no_dollar hnd
    simp only [check, hstart]
    rw [if_pos (Or.inl (by norm_num))]
  · intro hed
    simp only [check, hed]
    rw [if_pos (Or.inr (Or.inl (by norm_num)))]
  · intro hle
    simp only [check]
    rw [if_pos (Or.inr (Or.inr hle))]
  · intro hnone
    simp only [check]
    split
    · rfl
    · rw [hnone]

/-- C9 witness: the four malformed categories at concrete lines. -/
theorem check_total_C9_witness :
    check (cl ("hello")) = none ∧
    check (cl ("$GPRMC")) = none ∧
    check (cl ("$A*41")) = none ∧
    check (cl ("$AB*ZZ")) = none := by
  refine ⟨(check_total_C9 (cl ("hello"))).2.1 (by decide),
          (check_total_C9 (cl ("$GPRMC"))).2.2.1 (by decide),
          (check_total_C9 (cl ("$A*41"))).2.2.2.1 (by decide),
          (check_total_C9 (cl ("$AB*ZZ"))).2.2.2.2 (by decide)⟩

/-- C10: parsing None (a line the validator rejected) or a line shorter than
8 characters returns without touching any driver state. -/
theorem parse_frame_C10 (s : State) :
    parse s none = .ok s ∧
    ∀ l : List Char, l.length < 8 → parse s (some l) = .ok s := by
  constructor
  · rfl
  · intro l hl
    simp only [parse]
    rw [if_pos hl]

/-- C10 witness: the frame property at the initial state with a short
line. -/
theorem parse_frame_C10_witness :
    parse initState none = .ok initState ∧
    parse initState (some (cl ("$GP"))) = .ok initState :=
  ⟨(parse_frame_C10 initState).1, (parse_frame_C10 initState).2 (cl ("$GP")) (by decide)⟩

/-- C1: a Fix is stored exactly when both the rmc (position/velocity with
active validity) and gga (nonzero fix quality) seen-flags are set when the
parse tail runs, and that publication resets all four seen-flags; when the
pair is incomplete the fix slot is untouched.  Concretely: feeding an
RMC/GGA pair in either order publishes exactly one Fix, feeding only one of
the pair publishes none, and feeding the pair twice with the consumer
draining in between publishes two distinct Fixes. -/
theorem fix_aggregation_C1 :
    (∀ s : State, s.rmc = true → s.gga = true →
      ((tailPublish s).fix).isSome = true ∧ (tailPublish s).rmc = false ∧
      (tailPublish s).gga = false ∧ (tailPublish s).gsa = false ∧
      (tailPublish s).utc = false) ∧
    (∀ s : State, ¬(s.rmc = true ∧ s.gga = true) → (tailPublish s).fix = s.fix) ∧
    ((stepOk initState rmcLine1).fix = none ∧
     (stepOk initState ggaLine1).fix = none ∧
     ((stepOk (stepOk initState rmcLine1) ggaLine1).fix).isSome = true ∧
     (stepOk (stepOk initState rmcLine1) ggaLine1).rmc = false ∧
     (stepOk (stepOk initState rmcLine1) ggaLine1).gga = false ∧
     (stepOk (stepOk initState rmcLine1) ggaLine1).gsa = false ∧
     (stepOk (stepOk initState rmcLine1) ggaLine1).utc = false ∧
     ((stepOk (stepOk initState ggaLine1) rmcLine1).fix).isSome = true ∧
     ((fix (stepOk (stepOk initState rmcLine1) ggaLine1)).2).fix = none ∧
     (stepOk ((fix (stepOk (stepOk initState rmcLine1) ggaLine1)).2) rmcLine2).fix = none ∧
     ((stepOk (stepOk ((fix (stepOk (stepOk initState rmcLine1) ggaLine1)).2) rmcLine2)
        ggaLine2).fix).isSome = true ∧
     (stepOk (stepOk ((fix (stepOk (stepOk initState rmcLine1) ggaLine1)).2) rmcLine2)
        ggaLine2).fix ≠ (stepOk (stepOk initState rmcLine1) ggaLine1).fix ∧
     ((stepOk (stepOk initState rmcLine1) ggaLine1).fix).bind Fix.alt =
       some { num := 5454, den := 10 } ∧
     ((stepOk (stepOk ((fix (stepOk (stepOk initState rmcLine1) ggaLine1)).2) rmcLine2)
        ggaLine2).fix).bind Fix.alt = some { num := 6001, den := 10 } ∧
     ¬ PyF.eqv { num := 5454, den := 10 } { num := 6001, den := 10 }) := by
  refine ⟨?_, ?_, ?_⟩
  · intro s h1 h2
    obtain ⟨hf, hr, hg, hs, hu⟩ := tailPublish_pub h1 h2
    exact ⟨by rw [hf]; rfl, hr, hg, hs, hu⟩
  · intro s h
    exact (tailPublish_nopub h).1
  · decide

/-- C1 witness: the publication branch at a state with both mandatory flags
set, and the frame branch at the initial state. -/
theorem fix_aggregation_C1_witness :
    (((tailPublish { initState with rmc := true, gga := true }).fix).isSome = true ∧
     (tailPublish { initState with rmc := true, gga := true }).rmc = false ∧
     (tailPublish { initState with rmc := true, gga := true }).gga = false ∧
     (tailPublish { initState with rmc := true, gga := true }).gsa = false ∧
     (tailPublish { initState with rmc := true, gga := true }).utc = false) ∧
    (tailPublish initState).fix = initState.fix :=
  ⟨fix_aggregation_C1.1 { initState with rmc := true, gga := true } rfl rfl,
   fix_aggregation_C1.2.1 initState (by decide)⟩

/-- C5: a GSA sentence with 18 fields and mode 3 stores the decoded VDOP and
PDOP into the optional cfix slots and sets the gsa seen-flag (the fix slot is
untouched while the mandatory pair is incomplete); at publication the Fix
carries none for VDOP and PDOP when the gsa flag is unset, and carries the
buffered GSA-decoded values when it is set. -/
theorem gsa_optional_C5 :
    (∀ (s : State) (line : List Char) (hv vv pv : PyF),
      ¬ line.length < 8 →
      pySlice line 3 6 = ['G', 'S', 'A'] →
      ¬ (pySplit ',' line).length < 18 →
      (pySplit ',' line).getD 2 [] = ['3'] →
      pyFloat ((pySplit ',' line).getD 16 []) = some hv →
      pyFloat ((pySplit ',' line).getD 17 []) = some vv →
      pyFloat ((pySplit ',' line).getD 15 []) = some pv →
      s.rmc = false →
      (stepOk s line).gsa = true ∧ (stepOk s line).cfix7 = some vv ∧
      (stepOk s line).cfix8 = some pv ∧ (stepOk s line).fix = s.fix) ∧
    (∀ s : State, s.rmc = true → s.gga = true → s.gsa = false →
      ∃ f, (tailPublish s).fix = some f ∧ f.vdop = none ∧ f.pdop = none) ∧
    (∀ s : State, s.rmc = true → s.gga = true → s.gsa = true →
      ∃ f, (tailPublish s).fix = some f ∧ f.vdop = s.cfix7 ∧ f.pdop = s.cfix8) := by
  refine ⟨?_, ?_, ?_⟩
  · intro s line hv vv pv h8 hcmd h18 h3 hfh hfv hfp hrmc
    have hnRMC : pySlice line 3 6 ≠ ['R', 'M', 'C'] := by rw [hcmd]; decide
    have hnGGA : pySlice line 3 6 ≠ ['G', 'G', 'A'] := by rw [hcmd]; decide
    have hn3 : ¬((pySplit ',' line).getD 2 [] ≠ ['3']) := by rw [h3]; simp
    have hhd : set_hdop s ((pySplit ',' line).getD 16 []) =
        .ok { s with hdop := hv, cfix6 := some hv } := by
      unfold set_hdop
      rw [hfh]
    have hvd : set_vdop ({ s with hdop := hv, cfix6 := some hv })
        ((pySplit ',' line).getD 17 []) =
        .ok { s with hdop := hv, cfix6 := some hv, vdop := vv, cfix7 := some vv } := by
      unfold set_vdop
      rw [hfv]
    have hpd : set_pdop
        ({ s with hdop := hv, cfix6 := some hv, vdop := vv, cfix7 := some vv })
        ((pySplit ',' line).getD 15 []) =
        .ok ({ s with
          hdop := hv, cfix6 := some hv, vdop := vv, cfix7 := some vv,
          pdop := pv, cfix8 := some pv }) := by
      unfold set_pdop
      rw [hfp]
    have hparse : parse s (some line) =
        .ok (tailPublish { s with
          hdop := hv, cfix6 := some hv, vdop := vv, cfix7 := some vv,
          pdop := pv, cfix8 := some pv, gsa := true }) := by
      simp only [parse]
      rw [if_neg h8, if_neg hnRMC, if_neg hnGGA, hcmd, if_pos rfl, if_neg h18,
        if_neg hn3]
      simp only [hhd, hvd, hpd]
    have hstep : stepOk s line = tailPublish ({ s with
        hdop := hv, cfix6 := some hv, vdop := vv, cfix7 := some vv,
        pdop := pv, cfix8 := some pv, gsa := true }) := by
      rw [stepOk, hparse]
      rfl
    have hnp := tailPublish_nopub (s := { s with
        hdop := hv, cfix6 := some hv, vdop := vv, cfix7 := some vv,
        pdop := pv, cfix8 := some pv, gsa := true })
      (by simp [hrmc])
    rw [hstep]
    exact ⟨hnp.2.2.2.1, hnp.2.2.2.2.1, hnp.2.2.2.2.2.1, hnp.1⟩
  · intro s h1 h2 hg
    obtain ⟨hf, -⟩ := tailPublish_pub h1 h2
    exact ⟨_, hf, by simp [hg], by simp [hg]⟩
  · intro s h1 h2 hg
    obtain ⟨hf, -⟩ := tailPublish_pub h1 h2
    exact ⟨_, hf, by simp [hg], by simp [hg]⟩

/-- C5 witness: the GSA effect on the concrete scenario sentence (VDOP 2.1,
PDOP 2.5) and the two publication shapes at concrete states. -/
theorem gsa_optional_C5_witness :
    ((stepOk initState gsaLine1).gsa = true ∧
     (stepOk initState gsaLine1).cfix7 = some (PyF.mk 21 10) ∧
     (stepOk initState gsaLine1).cfix8 = some (PyF.mk 25 10) ∧
     (stepOk initState gsaLine1).fix = initState.fix) ∧
    (∃ f, (tailPublish { initState with rmc := true, gga := true }).fix = some f ∧
      f.vdop = none ∧ f.pdop = none) ∧
    (∃ f, (tailPublish { initState with
        rmc := true, gga := true, gsa := true,
        cfix7 := some (PyF.mk 21 10), cfix8 := some (PyF.mk 25 10) }).fix = some f ∧
      f.vdop = some (PyF.mk 21 10) ∧ f.pdop = some (PyF.mk 25 10)) := by
  refine ⟨?_, ?_, ?_⟩
  · exact gsa_optional_C5.1 initState gsaLine1 (PyF.mk 13 10) (PyF.mk 21 10)
      (PyF.mk 25 10) (by decide) (by decide) (by decide) (by decide) (by decide)
      (by decide) (by decide) (by decide)
  · exact gsa_optional_C5.2.1 { initState with rmc := true, gga := true } rfl rfl rfl
  · exact gsa_optional_C5.2.2 ({ initState with
      rmc := true, gga := true, gsa := true,
      cfix7 := some (PyF.mk 21 10), cfix8 := some (PyF.mk 25 10) }) rfl rfl rfl

end L76
